import Mathlib

/-!
Shallow embedding of `html5validator/validator.py` (the diagnostic pipeline of
bemoody/html5validator): module constants, the `Validator` class with its
construction-time ignore-list setup, command construction, the engine
invocation step `_run_validator`, the line-counting operation `validate`,
the structured-message operation `get_messages`, and the directory walk
`all_files`.

External collaborators are modelled as explicit inputs:
the child-process spawn (`subprocess.Popen` + `communicate`) is a function
from the composed command to either the captured stderr text or an OS errno;
`json.loads` is a function from text to a parsed `Json` value or a parse
error.  Python's `re` module is modelled by a small matcher covering the
regex fragment the repository's own patterns use (a leading backslash-A
anchor, the dot metacharacter, the postfix star, escaped and literal
characters), with `re.search` semantics (match anywhere, anchor only at the
start).  Python `str.splitlines` is modelled for newline-delimited text.
The cygwin path-conversion branches (`sys.platform == 'cygwin'`) are
platform-specific dead code on the modelled platform and are omitted.
-/

namespace Html5validator

/-- `DEFAULT_IGNORE_RE` (validator.py lines 17-19). -/
def DEFAULT_IGNORE_RE : List String :=
  ["\\ADocument checking completed. No errors found.*"]

/-- `DEFAULT_IGNORE` (validator.py lines 21-23). -/
def DEFAULT_IGNORE : List String :=
  ["\x7b\"messages\":[]\x7d"]

/-- `DEFAULT_IGNORE_XML` (validator.py lines 25-29). -/
def DEFAULT_IGNORE_XML : List String :=
  ["</messages>",
   "<?xml version='1.0' encoding='utf-8'?>",
   "<messages xmlns=\"http://n.validator.nu/messages/\">"]

/-- The message of `JavaNotFoundException.__str__` (validator.py lines 34-37). -/
def JavaNotFoundException_str : String :=
  "Missing Java Runtime Environment on this system. The command \"java\" must be available."

/-- POSIX errno for a missing executable, `os.errno.ENOENT`. -/
def ENOENT : Int := 2

/-- Does the character list `p` occur as a contiguous substring of `hay`?
Model of Python's `p in hay` on strings (empty needle is contained in
everything, as in Python). -/
def containsSub (needle : List Char) : List Char → Bool
  | [] => needle.isEmpty
  | c :: t => needle.isPrefixOf (c :: t) || containsSub needle t

/-- Python `i in l` for strings: substring containment. -/
def strContains (l i : String) : Bool :=
  containsSub i.data l.data

/-- Python `s.startswith(p)` / a regex `^p` prefix test, over characters. -/
def strStartsWith (p l : String) : Bool :=
  p.data.isPrefixOf l.data

/-- `Validator._normalize_string` replaces the typographic double quotes with
the ASCII double quote (validator.py lines 113-116); both `str.replace`
calls there have single-character needles, hence a character map. -/
def normalizeChar (c : Char) : Char :=
  if c = '“' then '"' else if c = '”' then '"' else c

/-- `Validator._normalize_string` (validator.py lines 113-116). -/
def normalize_string (s : String) : String :=
  ⟨s.data.map normalizeChar⟩

/-- Split a character list at newline characters; always returns at least one
(possibly empty) segment, like Python `s.split('\n')`. -/
def splitOnNl : List Char → List (List Char)
  | [] => [[]]
  | c :: rest =>
    if c = '\n' then [] :: splitOnNl rest
    else
      match splitOnNl rest with
      | [] => [[c]]
      | h :: t => (c :: h) :: t

/-- Python truthiness of a string: nonempty. -/
def pyTruthy (l : String) : Bool :=
  !l.data.isEmpty

/-- Python `str.splitlines` for newline-delimited text: segments between
newline characters, without a trailing empty segment for a trailing
newline, and `[]` for the empty string. -/
def pySplitlines (s : String) : List String :=
  if s.data.isEmpty then []
  else
    let parts := (splitOnNl s.data).map (fun l => (⟨l⟩ : String))
    if parts.getLastD "" = "" then parts.dropLast else parts

/-- One stderr line is JVM start-up noise when it starts with one of the two
alternatives of `STDERR_IGNORE_RE` (validator.py line 31). -/
def isStderrCruftLine (l : List Char) : Bool :=
  "Picked up _JAVA_OPTIONS:".data.isPrefixOf l ||
  "Picked up JAVA_TOOL_OPTIONS:".data.isPrefixOf l

/-- `re.sub(STDERR_IGNORE_RE, '', stderr, flags=re.MULTILINE)` (validator.py
line 178): every newline-terminated line matching the pattern is removed
together with its newline; a final fragment without a trailing newline is
never removed because the pattern requires the newline. -/
def stripJavaCruft (s : String) : String :=
  let parts := splitOnNl s.data
  ⟨(parts.dropLast.filter (fun l => !isStderrCruftLine l) ++
      [parts.getLastD []]).foldr (fun l acc => if acc.isEmpty then l else l ++ '\n' :: acc) []⟩

/-! The regex fragment used by the repository's patterns. -/

/-- One token of the modelled regex fragment. -/
inductive RTok where
  | lit (c : Char)
  | dot
  | star (t : RTok)
  | anchor
deriving DecidableEq, Repr

/-- Compile a pattern string into tokens: backslash-A is the start anchor,
a backslash escapes the next character, the dot matches any non-newline
character, a star repeats the preceding token. -/
def parseRegexAux : List Char → List RTok → List RTok
  | [], acc => acc.reverse
  | '\\' :: 'A' :: rest, acc => parseRegexAux rest (.anchor :: acc)
  | '\\' :: c :: rest, acc => parseRegexAux rest (.lit c :: acc)
  | '*' :: rest, t :: acc => parseRegexAux rest (.star t :: acc)
  | '*' :: rest, [] => parseRegexAux rest []
  | '.' :: rest, acc => parseRegexAux rest (.dot :: acc)
  | c :: rest, acc => parseRegexAux rest (.lit c :: acc)

/-- `re.compile` for the modelled fragment. -/
def parseRegex (s : String) : List RTok :=
  parseRegexAux s.data []

/-- Does a single (non-star, non-anchor) token match one character? -/
def matchTok : RTok → Char → Bool
  | .lit a, c => a = c
  | .dot, c => c ≠ '\n'
  | .star _, _ => false
  | .anchor, _ => false

/-- The suffixes of the input reachable by consuming zero or more
characters that the token matches: the candidate continuation points for a
starred token. -/
def starSuffixes (t : RTok) : List Char → List (List Char)
  | [] => [[]]
  | c :: cs => (c :: cs) :: (if matchTok t c then starSuffixes t cs else [])

/-- Match a token list against a prefix of the character list (the rest of
the input may be anything, as under search semantics).  A starred token
consumes any number of matching characters; the anchor never matches in
the middle of the input. -/
def matchHere : List RTok → List Char → Bool
  | [], _ => true
  | .anchor :: _, _ => false
  | .star t :: rest, cs => (starSuffixes t cs).any (fun cs2 => matchHere rest cs2)
  | _ :: _, [] => false
  | t :: rest, c :: cs => matchTok t c && matchHere rest cs

/-- Try `matchHere` at every suffix of the input. -/
def searchFrom (toks : List RTok) : List Char → Bool
  | [] => matchHere toks []
  | c :: cs => matchHere toks (c :: cs) || searchFrom toks cs

/-- `re.search` for the modelled fragment: a leading anchor pins the match to
the start of the input; otherwise the match may begin anywhere. -/
def regexSearch (toks : List RTok) (s : String) : Bool :=
  match toks with
  | .anchor :: rest => matchHere rest s.data
  | _ => searchFrom toks s.data

/-! Glob matching, the model of `fnmatch.filter` (star and question mark;
character classes are not used by this repository or its callers). -/

/-- All suffixes of a character list, the candidate continuation points
after a glob star. -/
def suffixes : List Char → List (List Char)
  | [] => [[]]
  | c :: cs => (c :: cs) :: suffixes cs

/-- Glob pattern match over characters: a star consumes any number of
characters, a question mark exactly one, anything else itself. -/
def globMatch : List Char → List Char → Bool
  | [], cs => cs.isEmpty
  | '*' :: ps, cs => (suffixes cs).any (fun cs2 => globMatch ps cs2)
  | '?' :: ps, cs =>
    match cs with
    | [] => false
    | _ :: cs2 => globMatch ps cs2
  | p :: ps, cs =>
    match cs with
    | [] => false
    | c :: cs2 => p = c && globMatch ps cs2

/-- `fnmatch.fnmatch name pattern`. -/
def fnmatch (name pattern : String) : Bool :=
  globMatch pattern.data name.data

/-! The `Validator` class. -/

/-- The state of a `Validator` object (validator.py lines 40-85).  The
`vnu_jar_location` is computed in `__init__` from the external `vnujar`
module's `__file__`, which is an input here. -/
structure Validator where
  ignore : List String
  ignore_re : List String
  stack_size : Option Nat
  errors_only : Bool
  detect_language : Bool
  format : Option String
  vnu_args : Option (List String)
  vnu_jar_location : String

/-- `Validator.__init__` (validator.py lines 53-85): fall back to empty
ignore lists, store the options, append the built-in default ignore
patterns and literals after the user-supplied ones, normalize typographic
quotes in every entry of both lists, and derive the jar location from the
`vnujar` module file path.  The cygwin branch is omitted. -/
def Validator.init (ignore : Option (List String)) (ignore_re : Option (List String))
    (errors_only : Bool) (detect_language : Bool) (format : Option String)
    (stack_size : Option Nat) (vnu_args : Option (List String))
    (vnujar_file : String) : Validator :=
  let ignore := ignore.getD []
  let ignore_re := ignore_re.getD []
  let ignore_re := ignore_re ++ DEFAULT_IGNORE_RE
  let ignore := ignore ++ DEFAULT_IGNORE
  let ignore := ignore.map normalize_string
  let ignore_re := ignore_re.map normalize_string
  { ignore := ignore
    ignore_re := ignore_re
    stack_size := stack_size
    errors_only := errors_only
    detect_language := detect_language
    format := format
    vnu_args := vnu_args
    vnu_jar_location :=
      (vnujar_file.replace "__init__.pyc" "vnu.jar").replace "__init__.py" "vnu.jar" }

/-- `Validator._java_options` (validator.py lines 87-93). -/
def Validator.java_options (v : Validator) : List String :=
  match v.stack_size with
  | some n => ["-Xss" ++ toString n ++ "k"]
  | none => []

/-- `Validator._vnu_options` (validator.py lines 95-111): a `None` format
argument falls back to the configured format. -/
def Validator.vnu_options (v : Validator) (format : Option String) : List String :=
  let format := match format with
    | none => v.format
    | some f => some f
  (if v.errors_only then ["--errors-only"] else []) ++
    (if !v.detect_language then ["--no-langdetect"] else []) ++
    (match format with
     | some f => ["--format", f]
     | none => []) ++
    v.vnu_args.getD []

/-- The command composed in `Validator._run_validator` (validator.py
lines 156-159). -/
def Validator.build_cmd (v : Validator) (files : List String)
    (format : Option String) : List String :=
  ["java"] ++ v.java_options ++ ["-jar", v.vnu_jar_location] ++
    v.vnu_options format ++ files

/-- The conditions `_run_validator` can raise (validator.py lines 34-37 and
167-171), plus the conditions `get_messages` can raise out of `json.loads`
and the `['messages']` subscript. -/
inductive PyExc where
  | javaNotFound
  | osError (errno : Int)
  | jsonError (msg : String)
  | keyError (key : String)
  | typeError
deriving DecidableEq, Repr

/-- The remediation message of each condition; `JavaNotFoundException`
carries the fixed string of its `__str__` (validator.py lines 34-37). -/
def PyExc.message : PyExc → String
  | .javaNotFound => JavaNotFoundException_str
  | .osError errno => "OSError errno " ++ toString errno
  | .jsonError msg => msg
  | .keyError key => "KeyError: " ++ key
  | .typeError => "TypeError"

/-- The child-process spawn: from the composed command either the captured
stderr text, or the errno of the `OSError` raised by `Popen`. -/
def Spawn : Type := List String → Except Int String

/-- `Validator._run_validator` (validator.py lines 151-184): compose the
command, spawn, capture stderr; on an `OSError` with errno `ENOENT` raise
`JavaNotFoundException`, on any other `OSError` re-raise it unchanged;
strip the JVM start-up noise lines; and normalize typographic quotes
unless the `format` argument (not the configured format) is `'json'`. -/
def Validator.run_validator (v : Validator) (spawn : Spawn) (files : List String)
    (format : Option String) : Except PyExc String :=
  match spawn (v.build_cmd files format) with
  | .error errno =>
    if errno = ENOENT then .error .javaNotFound else .error (.osError errno)
  | .ok stderr =>
    let stderr := stripJavaCruft stderr
    .ok (if format ≠ some "json" then normalize_string stderr else stderr)

/-- A spawn that always succeeds with the given engine behaviour. -/
def okEngine (engine : List String → String) : Spawn :=
  fun cmd => .ok (engine cmd)

/-- The text `_run_validator` returns for a spawn that succeeds. -/
def Validator.run_output (v : Validator) (engine : List String → String)
    (files : List String) (format : Option String) : String :=
  let stderr := stripJavaCruft (engine (v.build_cmd files format))
  if format ≠ some "json" then normalize_string stderr else stderr

/-- The two filtering loops of `Validator.validate` (validator.py
lines 201-205): first drop every line containing any literal ignore string,
then drop every line any compiled ignore pattern matches. -/
def apply_ignore_filters (ignoreL ignoreRe : List String) (e : List String) : List String :=
  let e := ignoreL.foldl (fun e i => e.filter (fun l => !strContains l i)) e
  ignoreRe.foldl (fun e i => e.filter (fun l => !regexSearch (parseRegex i) l)) e

/-- The body of `Validator.validate` after the engine invocation
(validator.py lines 190-212): split into lines, drop falsy (empty) lines,
overwrite the stored literal-ignore list with `DEFAULT_IGNORE_XML` when the
configured format is `'xml'` and fewer than 4 lines remain, run both
filtering loops, and return the surviving lines together with the
(possibly mutated) object state. -/
def Validator.validate_body (v : Validator) (stderr : String) :
    List String × Validator :=
  let e := pySplitlines stderr
  let e := e.filter pyTruthy
  let v := if v.format = some "xml" ∧ e.length < 4 then
    { v with ignore := DEFAULT_IGNORE_XML } else v
  let e := apply_ignore_filters v.ignore v.ignore_re e
  (e, v)

/-- `Validator.validate` (validator.py lines 186-212): run the engine with
no format override and report the number of surviving diagnostic lines,
alongside the object state after the call (the source mutates `self`). -/
def Validator.validate (v : Validator) (spawn : Spawn) (files : List String) :
    Except PyExc (Nat × Validator) :=
  (v.run_validator spawn files none).map
    (fun stderr =>
      let r := v.validate_body stderr
      (r.1.length, r.2))

/-! `get_messages` and the JSON model. -/

/-- A parsed JSON value, the result type of `json.loads`. -/
inductive Json where
  | null
  | bool (b : Bool)
  | num (n : Int)
  | str (s : String)
  | arr (elems : List Json)
  | obj (fields : List (String × Json))

/-- Subscripting a parsed JSON object, Python `json_data[key]`: the last
binding wins (as in a Python dict built from JSON), a missing key raises
`KeyError`, a non-object raises `TypeError`. -/
def jsonSubscript (j : Json) (key : String) : Except PyExc Json :=
  match j with
  | .obj fields =>
    match fields.reverse.lookup key with
    | some x => .ok x
    | none => .error (.keyError key)
  | _ => .error .typeError

/-- `json.loads`: an external collaborator, a function from text to a parsed
value or the message of a raised decode error. -/
def JsonLoads : Type := String → Except String Json

/-- `Validator.get_messages` (validator.py lines 214-235): run the engine
forcing the `'json'` format, parse the captured text with `json.loads`, and
return the value under the `'messages'` key; any raised condition
propagates. -/
def Validator.get_messages (v : Validator) (spawn : Spawn)
    (jsonLoads : JsonLoads) (files : List String) : Except PyExc Json :=
  match v.run_validator spawn files (some "json") with
  | .error e => .error e
  | .ok stderr =>
    match jsonLoads stderr with
    | .error msg => .error (.jsonError msg)
    | .ok json_data => jsonSubscript json_data "messages"

/-! `all_files` and the directory-walk model. -/

mutual
/-- A directory tree: the name of the directory, its subdirectories and the
names of its plain files, the data `os.walk` reports at each level. -/
inductive FSTree where
  | dir (nm : String) (subdirs : FSForest) (files : List String)
/-- A list of sibling directories. -/
inductive FSForest where
  | nil
  | cons (t : FSTree) (ts : FSForest)
end

/-- The name of a directory. -/
def FSTree.name : FSTree → String
  | .dir nm _ _ => nm

/-- The names of the directories of a forest, the `dirnames` list `os.walk`
reports. -/
def forestNames : FSForest → List String
  | .nil => []
  | .cons t ts => t.name :: forestNames ts

/-- Python `name[0] == '.'` for a file-system entry name (entry names on a
real file system are nonempty). -/
def startsWithDot (s : String) : Bool :=
  match s.data with
  | c :: _ => c = '.'
  | [] => false

mutual
/-- Sibling names are distinct at every level, the invariant a real file
system guarantees for the `os.walk` input (`list.remove` in the source
removes only the first occurrence of a name, so the claim about pruning is
stated under this invariant). -/
def noDupNames : FSTree → Bool
  | .dir _ subdirs _ =>
    decide ((forestNames subdirs).Nodup) && noDupForest subdirs
/-- Every directory of the forest satisfies `noDupNames`. -/
def noDupForest : FSForest → Bool
  | .nil => true
  | .cons t ts => noDupNames t && noDupForest ts
end

mutual
/-- `Validator.all_files` (validator.py lines 122-149), one level of the
top-down `os.walk`: remove each blacklisted name from the subdirectory
name list (`list.remove`, first occurrence), then, when hidden entries are
skipped, remove the names starting with a dot; collect, per match pattern,
the matching non-hidden file names joined onto the current path; then
descend into each subdirectory whose name is still on the list, in list
order (on a real file system, with its distinct sibling names, this is
exactly descending the remaining `dirnames` in order).  Paths are
component lists, with `os.path.join root filename` appending one
component. -/
def all_files_walk (path : List String) (t : FSTree) (matchPats : List String)
    (blacklist : List String) (skip_invisible : Bool) : List (List String) :=
  match t with
  | .dir _ subdirs files =>
    let dirnames := forestNames subdirs
    let dirnames := blacklist.foldl (fun ds b => ds.erase b) dirnames
    let dirnames :=
      if skip_invisible then
        (dirnames.filter startsWithDot).foldl (fun ds d => ds.erase d) dirnames
      else dirnames
    let here := matchPats.flatMap (fun pattern =>
      ((files.filter (fun f => fnmatch f pattern)).filter
          (fun f => !(skip_invisible && startsWithDot f))).map
        (fun f => path ++ [f]))
    here ++ walk_forest path subdirs matchPats blacklist skip_invisible dirnames
/-- Descend into the subdirectories that survived the pruning. -/
def walk_forest (path : List String) (f : FSForest) (matchPats : List String)
    (blacklist : List String) (skip_invisible : Bool) (keep : List String) :
    List (List String) :=
  match f with
  | .nil => []
  | .cons t ts =>
    (if t.name ∈ keep then
      all_files_walk (path ++ [t.name]) t matchPats blacklist skip_invisible
     else []) ++
      walk_forest path ts matchPats blacklist skip_invisible keep
end

/-- `Validator.all_files` (validator.py lines 122-149): default blacklist is
empty, a single pattern is wrapped in a list, and the walk starts at the
root directory. -/
def all_files (root : List String) (t : FSTree) (matchArg : List String ⊕ String)
    (blacklist : Option (List String)) (skip_invisible : Bool) : List (List String) :=
  let blacklist := blacklist.getD []
  let matchPats := match matchArg with
    | .inl pats => pats
    | .inr pat => [pat]
  all_files_walk root t matchPats blacklist skip_invisible

/-! Helper lemmas. -/

/-- A chain of filters, one per rule, equals one filter requiring every
rule's predicate. -/
theorem foldl_filter_eq {α β : Type} (rules : List α) (p : α → β → Bool) (e : List β) :
    rules.foldl (fun acc r => acc.filter (p r)) e =
      e.filter (fun x => rules.all (fun r => p r x)) := by
  induction rules generalizing e with
  | nil => simp
  | cons r rs ih =>
    simp only [List.foldl_cons, ih, List.filter_filter, List.all_cons]
    exact List.filter_congr fun x _ => Bool.and_comm _ _

theorem normalizeChar_idem (c : Char) :
    normalizeChar (normalizeChar c) = normalizeChar c := by
  unfold normalizeChar
  by_cases h1 : c = '“'
  · simp [h1]
  · by_cases h2 : c = '”' <;> simp [h1, h2]

theorem normalize_string_idem (s : String) :
    normalize_string (normalize_string s) = normalize_string s := by
  unfold normalize_string
  simp only [List.map_map]
  congr 1
  exact List.map_congr_left fun c _ => normalizeChar_idem c

/-- Folding filters over an empty list yields the empty list. -/
theorem foldl_filter_nil {α β : Type} (rules : List α) (p : α → β → Bool) :
    rules.foldl (fun acc r => acc.filter (p r)) [] = [] := by
  rw [foldl_filter_eq]; rfl

/-- Closed form of `Validator.validate_body`: the surviving lines are the
non-empty lines put through both filtering loops with the active literal
set, and the state keeps or overwrites the stored literal-ignore list
according to the near-empty-xml condition. -/
theorem validate_body_eq (v : Validator) (stderr : String) :
    v.validate_body stderr =
      (apply_ignore_filters
        (if v.format = some "xml" ∧
            ((pySplitlines stderr).filter pyTruthy).length < 4 then
          DEFAULT_IGNORE_XML else v.ignore)
        v.ignore_re
        ((pySplitlines stderr).filter pyTruthy),
       if v.format = some "xml" ∧
            ((pySplitlines stderr).filter pyTruthy).length < 4 then
          { v with ignore := DEFAULT_IGNORE_XML } else v) := by
  unfold Validator.validate_body
  by_cases h : v.format = some "xml" ∧
      ((pySplitlines stderr).filter pyTruthy).length < 4
  · simp only [if_pos h]
  · simp only [if_neg h]

/-- `validate` over a spawn that succeeds is the success of the body's
count and updated state. -/
theorem validate_okEngine (v : Validator) (engine : List String → String)
    (files : List String) :
    v.validate (okEngine engine) files =
      .ok ((v.validate_body (v.run_output engine files none)).1.length,
           (v.validate_body (v.run_output engine files none)).2) := rfl

/-- Claim C7: at construction, the literal-ignore list becomes the
user-supplied literals followed by the built-in default literals and the
pattern-ignore list becomes the user-supplied patterns followed by the
built-in default patterns, every entry of both then having the typographic
double quotes replaced by the ASCII double quote; the normalization maps
both typographic double-quote characters to the ASCII one and is
idempotent, so a typographic double quote in a configured rule and an
ASCII double quote in a quote-normalized line match each other. -/
theorem init_appends_defaults_and_normalizes (ign ignre : List String)
    (eo dl : Bool) (fmt : Option String) (ss : Option Nat)
    (va : Option (List String)) (jar : String) :
    (Validator.init (some ign) (some ignre) eo dl fmt ss va jar).ignore =
        (ign ++ DEFAULT_IGNORE).map normalize_string ∧
      (Validator.init (some ign) (some ignre) eo dl fmt ss va jar).ignore_re =
        (ignre ++ DEFAULT_IGNORE_RE).map normalize_string ∧
      normalize_string "“" = "\"" ∧
      normalize_string "”" = "\"" ∧
      ∀ s : String, normalize_string (normalize_string s) = normalize_string s :=
  ⟨rfl, rfl, by decide, by decide, normalize_string_idem⟩

/-- Claim C9: the line-filtering step is idempotent on already-filtered
input: on a list of non-empty lines in which no line contains any active
literal ignore string and no line is matched by any active ignore pattern,
the two filtering loops return the list unchanged. -/
theorem filtering_idempotent_on_filtered_input (ignoreL ignoreRe e : List String)
    (_hne : ∀ l ∈ e, l ≠ "")
    (hlit : ∀ l ∈ e, ∀ i ∈ ignoreL, strContains l i = false)
    (hre : ∀ l ∈ e, ∀ r ∈ ignoreRe, regexSearch (parseRegex r) l = false) :
    apply_ignore_filters ignoreL ignoreRe e = e := by
  unfold apply_ignore_filters
  have h1 : e.filter (fun l => ignoreL.all (fun i => !strContains l i)) = e := by
    refine List.filter_eq_self.mpr fun l hl => ?_
    simp only [List.all_eq_true, Bool.not_eq_true']
    exact fun i hi => hlit l hl i hi
  have h2 : e.filter (fun l => ignoreRe.all (fun r => !regexSearch (parseRegex r) l)) = e := by
    refine List.filter_eq_self.mpr fun l hl => ?_
    simp only [List.all_eq_true, Bool.not_eq_true']
    exact fun r hr => hre l hl r hr
  rw [foldl_filter_eq, foldl_filter_eq, h1, h2]

/-- Witness for claim C9 at a concrete already-filtered input. -/
theorem filtering_idempotent_on_filtered_input_witness :
    apply_ignore_filters ["noise"] ["\\Ax.*"] ["real error"] = ["real error"] :=
  filtering_idempotent_on_filtered_input ["noise"] ["\\Ax.*"] ["real error"]
    (by decide) (by decide) (by decide)

/-- Claim C5: `validate` splits the diagnostic text into lines, drops the
empty lines, drops every line containing any active literal ignore string
as a substring, drops every line any active ignore pattern matches under
search semantics, and returns exactly the number of remaining lines; the
active literal set is the stored one except in the near-empty `'xml'` case,
where it is the fixed envelope set. -/
theorem validate_counts_remaining_lines (v : Validator) (stderr : String)
    (engine : List String → String) (files : List String) :
    (v.validate_body stderr).1.length =
      ((( pySplitlines stderr).filter pyTruthy).filter (fun l =>
          (if v.format = some "xml" ∧
              ((pySplitlines stderr).filter pyTruthy).length < 4 then
            DEFAULT_IGNORE_XML else v.ignore).all (fun i => !strContains l i) &&
          v.ignore_re.all (fun r => !regexSearch (parseRegex r) l))).length ∧
      v.validate (okEngine engine) files =
        .ok ((v.validate_body (v.run_output engine files none)).1.length,
             (v.validate_body (v.run_output engine files none)).2) := by
  constructor
  · unfold Validator.validate_body apply_ignore_filters
    by_cases h : v.format = some "xml" ∧
        ((pySplitlines stderr).filter pyTruthy).length < 4
    · simp only [if_pos h, foldl_filter_eq, List.filter_filter]
      exact congrArg List.length (List.filter_congr fun a _ => by
        simp [Bool.and_assoc, Bool.and_comm, Bool.and_left_comm])
    · simp only [if_neg h, foldl_filter_eq, List.filter_filter]
      exact congrArg List.length (List.filter_congr fun a _ => by
        simp [Bool.and_assoc, Bool.and_comm, Bool.and_left_comm])
  · rfl

/-- Claim C3: for a Validator configured with format `'xml'`, if the
engine-invocation step's diagnostic text reduces, after empty-line
removal, to exactly the 3-line clean envelope (XML declaration line,
opening messages-tag line, closing messages-tag line), then `validate`
returns an error count of 0, not 3. -/
theorem xml_clean_envelope_counts_zero (v : Validator)
    (engine : List String → String) (files : List String)
    (hfmt : v.format = some "xml")
    (henv : (pySplitlines (v.run_output engine files none)).filter pyTruthy =
      ["<?xml version='1.0' encoding='utf-8'?>",
       "<messages xmlns=\"http://n.validator.nu/messages/\">",
       "</messages>"]) :
    v.validate (okEngine engine) files =
      .ok (0, { v with ignore := DEFAULT_IGNORE_XML }) := by
  have hc : v.format = some "xml" ∧
      ((pySplitlines (v.run_output engine files none)).filter pyTruthy).length < 4 := by
    rw [henv]; exact ⟨hfmt, by norm_num⟩
  have hlit : DEFAULT_IGNORE_XML.foldl
      (fun e i => e.filter (fun l => !strContains l i))
      ["<?xml version='1.0' encoding='utf-8'?>",
       "<messages xmlns=\"http://n.validator.nu/messages/\">",
       "</messages>"] = [] := by decide
  rw [validate_okEngine, validate_body_eq, if_pos hc, if_pos hc, henv]
  unfold apply_ignore_filters
  rw [hlit, foldl_filter_nil]
  rfl

/-- Witness for claim C3: a concrete xml-format Validator fed exactly the
clean envelope counts zero errors. -/
theorem xml_clean_envelope_counts_zero_witness :
    (Validator.init none none false true (some "xml") none none "j").validate
        (okEngine (fun _ =>
          "<?xml version='1.0' encoding='utf-8'?>\n<messages xmlns=\"http://n.validator.nu/messages/\">\n</messages>\n"))
        ["f.html"] =
      .ok (0, { Validator.init none none false true (some "xml") none none "j" with
                  ignore := DEFAULT_IGNORE_XML }) :=
  xml_clean_envelope_counts_zero _ _ _ rfl (by decide)

/-- Claim C1 counterexample: the envelope-boilerplate replacement of the
literal-ignore set is not scoped to the single `validate` call: after a
call on a near-empty xml result, the stored literal-ignore list is
`DEFAULT_IGNORE_XML`, no longer the user-supplied literal followed by the
built-in defaults that it was before the call. -/
theorem ignore_replacement_not_call_scoped :
    Except.map (fun r => r.2.ignore)
        ((Validator.init (some ["user-rule"]) none false true (some "xml") none none "j").validate
          (okEngine (fun _ =>
            "<?xml version='1.0' encoding='utf-8'?>\n<messages xmlns=\"http://n.validator.nu/messages/\">\n</messages>\n"))
          ["f.html"]) =
      .ok DEFAULT_IGNORE_XML ∧
    DEFAULT_IGNORE_XML ≠
      (Validator.init (some ["user-rule"]) none false true (some "xml") none none "j").ignore :=
  ⟨rfl, by decide⟩

/-- Claim C1 (amended): when the configured format is `'xml'` and the
non-empty line count is below 4, the replacement of the stored
literal-ignore list by the fixed XML envelope-boilerplate lines persists
after the call returns: the stored list is then `DEFAULT_IGNORE_XML`, so
subsequent `validate` calls use the replaced rules, not the original
user-supplied-plus-default ones. -/
theorem ignore_replacement_persists (v : Validator)
    (engine : List String → String) (files : List String)
    (hfmt : v.format = some "xml")
    (hlen : ((pySplitlines (v.run_output engine files none)).filter pyTruthy).length < 4) :
    Except.map (fun r => r.2.ignore) (v.validate (okEngine engine) files) =
      .ok DEFAULT_IGNORE_XML := by
  have hc : v.format = some "xml" ∧
      ((pySplitlines (v.run_output engine files none)).filter pyTruthy).length < 4 :=
    ⟨hfmt, hlen⟩
  rw [validate_okEngine, validate_body_eq, if_pos hc, if_pos hc]
  rfl

/-- Witness for the amended claim C1 at a concrete near-empty xml run. -/
theorem ignore_replacement_persists_witness :
    Except.map (fun r => r.2.ignore)
        ((Validator.init (some ["user-rule"]) none false true (some "xml") none none "j").validate
          (okEngine (fun _ => "just one line\n")) ["f.html"]) =
      .ok DEFAULT_IGNORE_XML :=
  ignore_replacement_persists _ _ _ rfl (by decide)

/-- Claim C2 counterexample: with the configured output format `'json'`,
`validate`'s engine invocation resolves `--format json` (the engine is
actually invoked with JSON output), yet the returned text is
quote-normalized, because `_run_validator` tests its `format` argument
(which `validate` leaves unset), not the format the invocation resolved. -/
theorem json_config_validate_text_still_normalized :
    (Validator.init none none false true (some "json") none none "j").vnu_options none =
        ["--format", "json"] ∧
      (Validator.init none none false true (some "json") none none "j").run_output
          (fun _ => "a“b") ["f.html"] none = "a\"b" ∧
      ("a\"b" : String) ≠ "a“b" :=
  ⟨rfl, rfl, by decide⟩

/-- Claim C2 (amended): the diagnostic text returned by the
engine-invocation step is quote-normalized if and only if the format
argument explicitly passed to that step is not `'json'`: the
`get_messages` path, which passes `'json'` explicitly, is never
normalized, while the `validate` path, which passes no format argument,
is always normalized — even when the configured format is `'json'` and
the engine was therefore invoked with JSON output. -/
theorem run_validator_normalizes_unless_json_argument (v : Validator)
    (engine : List String → String) (files : List String) :
    v.run_output engine files (some "json") =
        stripJavaCruft (engine (v.build_cmd files (some "json"))) ∧
      v.run_output engine files none =
        normalize_string (stripJavaCruft (engine (v.build_cmd files none))) ∧
      ∀ fmt : Option String, fmt ≠ some "json" →
        v.run_output engine files fmt =
          normalize_string (stripJavaCruft (engine (v.build_cmd files fmt))) := by
  refine ⟨?_, rfl, ?_⟩
  · unfold Validator.run_output
    rw [if_neg (by simp)]
  · intro fmt hfmt
    unfold Validator.run_output
    rw [if_pos hfmt]

/-- Witness for the amended claim C2 at a concrete non-json format. -/
theorem run_validator_normalizes_unless_json_argument_witness :
    (Validator.init none none false true none none none "j").run_output
        (fun _ => "a“b") ["f.html"] (some "gnu") =
      normalize_string (stripJavaCruft
        ((fun _ => "a“b")
          ((Validator.init none none false true none none none "j").build_cmd
            ["f.html"] (some "gnu")))) :=
  (run_validator_normalizes_unless_json_argument _ _ _).2.2 (some "gnu") (by decide)

/-- Claim C4: when the spawn fails with the no-such-file error code
(`ENOENT`), the engine-invocation step raises `JavaNotFoundException`
carrying the fixed remediation message; for every other spawn failure the
original error propagates unchanged. -/
theorem run_validator_enoent_dispatch (v : Validator) (spawn : Spawn)
    (files : List String) (fmt : Option String) (errno : Int)
    (hsp : spawn (v.build_cmd files fmt) = .error errno) :
    ((errno = ENOENT → v.run_validator spawn files fmt = .error .javaNotFound) ∧
      (errno ≠ ENOENT → v.run_validator spawn files fmt = .error (.osError errno))) ∧
    PyExc.message .javaNotFound =
      "Missing Java Runtime Environment on this system. The command \"java\" must be available." := by
  refine ⟨⟨?_, ?_⟩, rfl⟩
  · intro h
    unfold Validator.run_validator
    rw [hsp]
    exact if_pos h
  · intro h
    unfold Validator.run_validator
    rw [hsp]
    exact if_neg h

/-- Witness for claim C4: `ENOENT` yields the RuntimeNotFound condition,
another errno propagates as-is. -/
theorem run_validator_enoent_dispatch_witness :
    (Validator.init none none false true none none none "j").run_validator
        (fun _ => .error 2) ["f.html"] none = .error .javaNotFound ∧
      (Validator.init none none false true none none none "j").run_validator
        (fun _ => .error 13) ["f.html"] none = .error (.osError 13) :=
  ⟨((run_validator_enoent_dispatch _ _ ["f.html"] none 2 rfl).1).1 rfl,
   ((run_validator_enoent_dispatch _ _ ["f.html"] none 13 rfl).1).2 (by decide)⟩

/-- Claim C8: `get_messages` invokes the engine forcing the JSON format
regardless of the configured format (the composed command always carries
`--format json`), hands the returned text to the JSON parser, and returns
the value under the `'messages'` key verbatim — in engine-assigned order,
with no ignore rule applied; a parse failure propagates as a data-format
error and no message sequence is returned. -/
theorem get_messages_forces_json_and_parses (v : Validator) (spawn : Spawn)
    (jsonLoads : JsonLoads) (files : List String) :
    (∃ pre post, v.build_cmd files (some "json") =
        pre ++ ["--format", "json"] ++ post) ∧
      (∀ s fields m, v.run_validator spawn files (some "json") = .ok s →
        jsonLoads s = .ok (.obj fields) →
        fields.reverse.lookup "messages" = some m →
        v.get_messages spawn jsonLoads files = .ok m) ∧
      (∀ s msg, v.run_validator spawn files (some "json") = .ok s →
        jsonLoads s = .error msg →
        v.get_messages spawn jsonLoads files = .error (.jsonError msg)) := by
  refine ⟨?_, ?_, ?_⟩
  · refine ⟨["java"] ++ v.java_options ++ ["-jar", v.vnu_jar_location] ++
      (if v.errors_only then ["--errors-only"] else []) ++
      (if !v.detect_language then ["--no-langdetect"] else []),
      v.vnu_args.getD [] ++ files, ?_⟩
    unfold Validator.build_cmd Validator.vnu_options
    simp [List.append_assoc]
  · intro s fields m h1 h2 h3
    unfold Validator.get_messages
    rw [h1]
    dsimp only
    rw [h2]
    unfold jsonSubscript
    dsimp only
    rw [h3]
  · intro s msg h1 h2
    unfold Validator.get_messages
    rw [h1]
    dsimp only
    rw [h2]

/-- Witness for claim C8: a concrete engine payload is parsed and its
messages value returned. -/
theorem get_messages_forces_json_and_parses_witness :
    (Validator.init none none false true (some "xml") none none "j").get_messages
        (okEngine (fun _ => "payload"))
        (fun s => if s = "payload" then
          .ok (.obj [("messages", .arr [.str "m1"])]) else .error "boom")
        ["f.html"] =
      .ok (.arr [.str "m1"]) :=
  (get_messages_forces_json_and_parses _ _ _ _).2.1 "payload"
    [("messages", .arr [.str "m1"])] (.arr [.str "m1"]) rfl rfl rfl

/-- Iterated `validate` calls, threading the (possibly mutated) object
state through successive diagnostic texts. -/
def iterate_validate (v : Validator) : List String → Validator
  | [] => v
  | s :: rest => iterate_validate (v.validate_body s).2 rest

/-- A `validate` call never changes the stored pattern-ignore list. -/
theorem validate_body_ignore_re (v : Validator) (s : String) :
    (v.validate_body s).2.ignore_re = v.ignore_re := by
  rw [validate_body_eq]
  dsimp only
  split <;> rfl

/-- Any number of `validate` calls leaves the pattern-ignore list as
constructed. -/
theorem iterate_validate_ignore_re (v : Validator) (calls : List String) :
    (iterate_validate v calls).ignore_re = v.ignore_re := by
  induction calls generalizing v with
  | nil => rfl
  | cons s rest ih =>
    show (iterate_validate (v.validate_body s).2 rest).ignore_re = v.ignore_re
    rw [ih, validate_body_ignore_re]

/-- A line matched by a member of the active pattern list never survives
the filtering loops. -/
theorem not_mem_apply_ignore_filters_of_re (L Re e : List String) (r l : String)
    (hr : r ∈ Re) (hm : regexSearch (parseRegex r) l = true) :
    l ∉ apply_ignore_filters L Re e := by
  unfold apply_ignore_filters
  rw [foldl_filter_eq, foldl_filter_eq]
  intro hmem
  have hall := (List.mem_filter.mp hmem).2
  rw [List.all_eq_true] at hall
  have h2 := hall r hr
  simp [hm] at h2

/-- Literal tokens consume exactly their own characters. -/
theorem matchHere_lits (cs : List Char) (rest : List RTok) (u : List Char) :
    matchHere (cs.map RTok.lit ++ rest) (cs ++ u) = matchHere rest u := by
  induction cs with
  | nil => simp
  | cons c cs ih =>
    show (matchTok (.lit c) c && matchHere (cs.map RTok.lit ++ rest) (cs ++ u)) =
      matchHere rest u
    simp [matchTok, ih]

/-- The dot token consumes one non-newline character. -/
theorem matchHere_dot (rest : List RTok) (c : Char) (u : List Char) (hc : c ≠ '\n') :
    matchHere (.dot :: rest) (c :: u) = matchHere rest u := by
  show (matchTok .dot c && matchHere rest u) = matchHere rest u
  simp [matchTok, hc]

/-- A trailing starred token matches any remaining input. -/
theorem matchHere_star_tail (t : RTok) (u : List Char) :
    matchHere [.star t] u = true := by
  cases u with
  | nil => rfl
  | cons c cs => rfl

/-- The built-in all-clear pattern matches every line that begins with
the all-clear prefix. -/
theorem default_re_matches_all_clear (l : String)
    (hpre : strStartsWith "Document checking completed. No errors found" l = true) :
    regexSearch (parseRegex "\\ADocument checking completed. No errors found.*") l = true := by
  obtain ⟨u, hu⟩ :=
    List.isPrefixOf_iff_prefix.mp hpre
  have htoks : parseRegex "\\ADocument checking completed. No errors found.*" =
      .anchor :: ("Document checking completed".data.map RTok.lit ++
        (.dot :: (" No errors found".data.map RTok.lit ++ [.star .dot]))) := by decide
  have hdata : "Document checking completed. No errors found".data =
      "Document checking completed".data ++ '.' :: " No errors found".data := by decide
  have hsplit : "Document checking completed. No errors found".data ++ u =
      "Document checking completed".data ++
        ('.' :: (" No errors found".data ++ u)) := by
    rw [hdata]
    simp
  rw [htoks]
  show matchHere ("Document checking completed".data.map RTok.lit ++
    (.dot :: (" No errors found".data.map RTok.lit ++ [.star .dot]))) l.data = true
  rw [← hu, hsplit, matchHere_lits, matchHere_dot _ _ _ (by decide), matchHere_lits]
  exact matchHere_star_tail _ _

/-- Claim C10: whatever ignore arguments the Validator was constructed
with and however many `validate` calls precede, the stored pattern-ignore
list still contains the built-in all-clear pattern, and a line beginning
with the all-clear prefix never survives the filtering of a `validate`
call, hence is never counted toward the error total. -/
theorem default_all_clear_pattern_always_active
    (ign ignre : Option (List String)) (eo dl : Bool) (fmt : Option String)
    (ss : Option Nat) (va : Option (List String)) (jar : String)
    (calls : List String) (stderr l : String)
    (hpre : strStartsWith "Document checking completed. No errors found" l = true) :
    "\\ADocument checking completed. No errors found.*" ∈
        (iterate_validate (Validator.init ign ignre eo dl fmt ss va jar) calls).ignore_re ∧
      l ∉ ((iterate_validate (Validator.init ign ignre eo dl fmt ss va jar)
        calls).validate_body stderr).1 := by
  have hmem : "\\ADocument checking completed. No errors found.*" ∈
      (iterate_validate (Validator.init ign ignre eo dl fmt ss va jar) calls).ignore_re := by
    rw [iterate_validate_ignore_re]
    show _ ∈ (ignre.getD [] ++ DEFAULT_IGNORE_RE).map normalize_string
    refine List.mem_map.mpr
      ⟨"\\ADocument checking completed. No errors found.*", ?_, by decide⟩
    exact List.mem_append_right _ (by simp [DEFAULT_IGNORE_RE])
  refine ⟨hmem, ?_⟩
  rw [validate_body_eq]
  exact not_mem_apply_ignore_filters_of_re _ _ _ _ _ hmem
    (default_re_matches_all_clear l hpre)

/-- Witness for claim C10: a concrete all-clear line is suppressed after a
preceding `validate` call. -/
theorem default_all_clear_pattern_always_active_witness :
    "\\ADocument checking completed. No errors found.*" ∈
        (iterate_validate (Validator.init none none false true none none none "j")
          ["earlier output"]).ignore_re ∧
      "Document checking completed. No errors found." ∉
        ((iterate_validate (Validator.init none none false true none none none "j")
          ["earlier output"]).validate_body
            "Document checking completed. No errors found.\nreal error\n").1 :=
  default_all_clear_pattern_always_active none none false true none none none "j"
    ["earlier output"] "Document checking completed. No errors found.\nreal error\n"
    "Document checking completed. No errors found." (by decide)

/-- Removing elements can only shrink the list: membership after a fold of
`erase` implies membership before. -/
theorem mem_of_mem_foldl_erase {bl init : List String} {x : String}
    (h : x ∈ bl.foldl (fun ds b => ds.erase b) init) : x ∈ init := by
  induction bl generalizing init with
  | nil => simpa using h
  | cons b bs ih => exact List.mem_of_mem_erase (ih h)

/-- On a duplicate-free list, erasing every element of `bl` in turn removes
each of its members for good. -/
theorem not_mem_foldl_erase_of_nodup {init bl : List String} {b : String}
    (hnd : init.Nodup) (hb : b ∈ bl) :
    b ∉ bl.foldl (fun ds x => ds.erase x) init := by
  induction bl generalizing init with
  | nil => cases hb
  | cons c cs ih =>
    intro hmem
    rcases List.mem_cons.mp hb with rfl | hb2
    · have : b ∈ init.erase b := mem_of_mem_foldl_erase hmem
      exact ((List.Nodup.mem_erase_iff hnd).mp this).1 rfl
    · exact ih (hnd.erase c) hb2 hmem

mutual
/-- Soundness of the walk for claim C6: under distinct sibling names, every
path the walk returns is the current path extended by a chain of
descended-into directory names, none of which is blacklisted, and a final
file name. -/
theorem all_files_walk_sound (path : List String) (t : FSTree)
    (pats bl : List String) (skipInv : Bool)
    (hnd : noDupNames t = true) :
    ∀ p ∈ all_files_walk path t pats bl skipInv,
      ∃ rel fn, p = path ++ rel ++ [fn] ∧ ∀ d ∈ rel, d ∉ bl := by
  match t with
  | .dir n subdirs fls =>
    have hnd2 : (decide ((forestNames subdirs).Nodup) && noDupForest subdirs) = true := hnd
    rw [Bool.and_eq_true, decide_eq_true_eq] at hnd2
    intro p hp
    simp only [all_files_walk] at hp
    rcases List.mem_append.mp hp with hhere | hrec
    · obtain ⟨pat, _, hmem⟩ := List.mem_flatMap.mp hhere
      obtain ⟨fn, _, rfl⟩ := List.mem_map.mp hmem
      exact ⟨[], fn, by simp, by simp⟩
    · refine walk_forest_sound path subdirs pats bl skipInv _ hnd2.2 ?_ p hrec
      intro d hd hdbl
      have hd2 : d ∈ bl.foldl (fun ds b => ds.erase b) (forestNames subdirs) := by
        cases skipInv with
        | false => simpa using hd
        | true => exact mem_of_mem_foldl_erase (by simpa using hd)
      exact not_mem_foldl_erase_of_nodup hnd2.1 hdbl hd2

/-- Soundness of the forest descent: every subtree whose name is kept, and
kept names are never blacklisted, yields only paths whose directory chain
avoids the blacklist. -/
theorem walk_forest_sound (path : List String) (f : FSForest)
    (pats bl : List String) (skipInv : Bool) (keep : List String)
    (hnd : noDupForest f = true)
    (hkeep : ∀ d ∈ keep, d ∉ bl) :
    ∀ p ∈ walk_forest path f pats bl skipInv keep,
      ∃ rel fn, p = path ++ rel ++ [fn] ∧ ∀ d ∈ rel, d ∉ bl := by
  match f with
  | .nil =>
    intro p hp
    simp only [walk_forest] at hp
    cases hp
  | .cons t ts =>
    have hnd2 : (noDupNames t && noDupForest ts) = true := hnd
    rw [Bool.and_eq_true] at hnd2
    intro p hp
    simp only [walk_forest] at hp
    rcases List.mem_append.mp hp with hin | hin
    · by_cases hk : t.name ∈ keep
      · rw [if_pos hk] at hin
        obtain ⟨rel, fn, hpe, hrel⟩ :=
          all_files_walk_sound (path ++ [t.name]) t pats bl skipInv hnd2.1 p hin
        refine ⟨t.name :: rel, fn, ?_, ?_⟩
        · rw [hpe]
          simp
        · intro x hx
          rcases List.mem_cons.mp hx with rfl | hx2
          · exact hkeep _ hk
          · exact hrel x hx2
      · rw [if_neg hk] at hin
        cases hin
    · exact walk_forest_sound path ts pats bl skipInv keep hnd2.2 hkeep p hin
end

/-- Claim C6: file discovery never returns a path lying beneath a
blacklisted directory, regardless of the match patterns — blacklisted
names are pruned from the traversal before descending (stated under the
file-system invariant that sibling names are distinct). -/
theorem all_files_never_beneath_blacklisted (root : List String) (t : FSTree)
    (matchArg : List String ⊕ String) (bl : List String) (skipInv : Bool)
    (hnd : noDupNames t = true) :
    ∀ p ∈ all_files root t matchArg (some bl) skipInv,
      ∃ rel fn, p = root ++ rel ++ [fn] ∧ ∀ d ∈ rel, d ∉ bl := by
  intro p hp
  exact all_files_walk_sound root t _ bl skipInv hnd p hp

/-- Witness for claim C6: on a concrete tree with a blacklisted subtree,
the returned path beneath a kept directory decomposes with no blacklisted
component. -/
theorem all_files_never_beneath_blacklisted_witness :
    ∃ rel fn, (["root", "keep", "a.html"] : List String) = ["root"] ++ rel ++ [fn] ∧
      ∀ d ∈ rel, d ∉ (["skipme"] : List String) :=
  all_files_never_beneath_blacklisted ["root"]
    (.dir "root"
      (.cons (.dir "keep" .nil ["a.html"])
        (.cons (.dir "skipme" (.cons (.dir "inner" .nil ["c.html"]) .nil) ["d.html"])
          .nil))
      ["top.txt"])
    (.inr "*.html") ["skipme"] true (by decide)
    ["root", "keep", "a.html"] (by decide)

end Html5validator
